import Mathlib

/-!
Shallow embedding of the `ts-express-server` tutorial repository: an Express
CRUD API over an in-memory array of items.  The data model and operations are
translated from the TypeScript sources quoted in `src/README.md`
(config.ts, item.ts, itemController.ts, errorHandler.ts) and `src/src/app.ts`.

JavaScript numbers reaching the controllers are either genuine integers
(`Date.now()` results, successful `parseInt`) or `NaN` (failed `parseInt`),
so they are modelled by the type `JSNum` below; `===` on numbers is `jsEq`
(`NaN` compares unequal to everything, including itself).  JS truthiness of
`x || d` for strings (empty string is falsy) and numbers (`0` and `NaN` are
falsy) is modelled by `jsOrStr` / `jsOrNum`.
-/

namespace TsExpress

/-- Record type from `src/models/item.ts`: `interface Item` with a numeric `id`
and a string `name`.
`id` is produced by `Date.now()`, hence an integer. -/
structure Item where
  id : Int
  name : String
deriving Repr, DecidableEq

/-- Store type from `src/models/item.ts`: `export let items: Item[] = []`, an
ordered sequence of items. -/
abbrev Store := List Item

/-- A JavaScript number as it occurs in the controllers: an integer or `NaN`. -/
inductive JSNum where
  | nan : JSNum
  | num : Int → JSNum
deriving Repr, DecidableEq

/-- JS `===` on numbers: `NaN` is unequal to everything (itself included). -/
def jsEq : JSNum → JSNum → Bool
  | JSNum.num a, JSNum.num b => a == b
  | _, _ => false

/-- JS `s || d` for `string | undefined`: `undefined` and `""` are falsy. -/
def jsOrStr : Option String → String → String
  | none, d => d
  | some s, d => if s = "" then d else s

/-- JS `n || d` for a number: `NaN` and `0` are falsy. -/
def jsOrNum : JSNum → Int → Int
  | JSNum.nan, d => d
  | JSNum.num n, d => if n = 0 then d else n

/-- Decimal-digit run folded to a natural number. -/
def digitsToNat (ds : List Char) : Nat :=
  ds.foldl (fun acc c => acc * 10 + (c.toNat - '0'.toNat)) 0

/-- Core of `parseInt(s, 10)` after sign handling: the longest leading run of
decimal digits; `NaN` when there is none. -/
def parseIntCore (cs : List Char) (neg : Bool) : JSNum :=
  let ds := cs.takeWhile Char.isDigit
  if ds.isEmpty then JSNum.nan
  else JSNum.num (if neg then -(digitsToNat ds : Int) else (digitsToNat ds : Int))

/-- JS `parseInt(s, 10)`: skip leading whitespace, optional sign, then the
longest run of decimal digits; `NaN` when no digit follows. -/
def parseIntTen (s : String) : JSNum :=
  match s.data.dropWhile Char.isWhitespace with
  | '-' :: rest => parseIntCore rest true
  | '+' :: rest => parseIntCore rest false
  | cs => parseIntCore cs false

/-- The JSON bodies the app ever sends: a single item, the item array, or a
`{ message: ... }` envelope. -/
inductive Body where
  | item : Item → Body
  | items : List Item → Body
  | msg : String → Body
deriving Repr, DecidableEq

/-- An HTTP response as produced by `res.status(...).json(...)`
(`res.json(...)` alone has status 200). -/
structure Response where
  status : Int
  body : Body
deriving Repr, DecidableEq

/-- The 404 response `res.status(404).json({ message: 'Item not found' })`
shared by `getItemById`, `updateItem` and `deleteItem`. -/
def notFound : Response := { status := 404, body := Body.msg "Item not found" }

/-- Controller `createItem` (src/controllers/itemController.ts): builds
`{ id: Date.now(), name }`, pushes it onto `items`, answers
`res.status(201).json(newItem)`.  `now` is the `Date.now()` value at the call.
Returns the response together with the store after the call. -/
def createItem (now : Int) (name : String) (s : Store) : Response × Store :=
  let newItem : Item := { id := now, name := name }
  ({ status := 201, body := Body.item newItem }, s ++ [newItem])

/-- Controller `getItems` (src/controllers/itemController.ts): `res.json(items)`. -/
def getItems (s : Store) : Response × Store :=
  ({ status := 200, body := Body.items s }, s)

/-- Controller `getItemById` (src/controllers/itemController.ts) after
`parseInt(req.params.id, 10)`: `items.find((i) => i.id === id)`;
on `undefined` it answers the 404 envelope, otherwise `res.json(item)`.
The scan is the first-match linear scan of `Array.prototype.find`. -/
def getItemById (id : JSNum) (s : Store) : Response × Store :=
  match s.find? (fun i => jsEq (JSNum.num i.id) id) with
  | none => (notFound, s)
  | some item => ({ status := 200, body := Body.item item }, s)

/-- Controller `updateItem` (src/controllers/itemController.ts) after
`parseInt(req.params.id, 10)`: `items.findIndex((i) => i.id === id)`;
`-1` answers the 404 envelope; otherwise `items[itemIndex].name = name` and
`res.json(items[itemIndex])`.  The first-match scan plus in-place mutation is
rendered as a structural scan that rebuilds the list with the first matching
item's `name` replaced (its `id` untouched). -/
def updateItem (id : JSNum) (name : String) : Store → Response × Store
  | [] => (notFound, [])
  | it :: rest =>
    if jsEq (JSNum.num it.id) id then
      let updated : Item := { id := it.id, name := name }
      ({ status := 200, body := Body.item updated }, updated :: rest)
    else
      let r := updateItem id name rest
      (r.1, it :: r.2)

/-- Controller `deleteItem` (src/controllers/itemController.ts) after
`parseInt(req.params.id, 10)`: `items.findIndex((i) => i.id === id)`;
`-1` answers the 404 envelope; otherwise
`const deletedItem = items.splice(itemIndex, 1)[0]` and
`res.json(deletedItem)`.  The first-match scan plus `splice` is rendered as a
structural scan that removes the first matching item and returns it. -/
def deleteItem (id : JSNum) : Store → Response × Store
  | [] => (notFound, [])
  | it :: rest =>
    if jsEq (JSNum.num it.id) id then
      ({ status := 200, body := Body.item it }, rest)
    else
      let r := deleteItem id rest
      (r.1, it :: r.2)

/-- Route `GET /api/items/:id`: the raw path parameter goes through
`parseInt(req.params.id, 10)` before the scan. -/
def getItemByIdParam (idStr : String) (s : Store) : Response × Store :=
  getItemById (parseIntTen idStr) s

/-- Route `PUT /api/items/:id`: the raw path parameter goes through `parseInt`. -/
def updateItemParam (idStr : String) (name : String) (s : Store) : Response × Store :=
  updateItem (parseIntTen idStr) name s

/-- Route `DELETE /api/items/:id`: the raw path parameter goes through `parseInt`. -/
def deleteItemParam (idStr : String) (s : Store) : Response × Store :=
  deleteItem (parseIntTen idStr) s

/-- Error type of `src/middlewares/errorHandler.ts`:
`interface AppError extends Error` adding an optional numeric `status`.
(src/middlewares/errorHandler.ts).  `message` is the `Error` message string
(possibly empty); `status` is the optional numeric field. -/
structure AppError where
  status : Option Int
  message : String
deriving Repr, DecidableEq

/-- Middleware `errorHandler` (src/middlewares/errorHandler.ts):
`res.status(err.status || 500).json({ message: err.message || 'Internal Server Error' })`. -/
def errorHandler (err : AppError) : Response :=
  { status := jsOrNum (match err.status with
                       | none => JSNum.nan
                       | some n => JSNum.num n) 500,
    body := Body.msg (jsOrStr (some err.message) "Internal Server Error") }

/-- Typed configuration of `src/config/config.ts`:
`interface Config` with a numeric `port` and a string `nodeEnv`. -/
structure Config where
  port : Int
  nodeEnv : String
deriving Repr, DecidableEq

/-- Conversion `Number(x)` for `string | undefined`, restricted to the shapes the config
can meet: `undefined` gives `NaN`, the empty string gives `0`, a decimal
integer literal gives its value, any other string gives `NaN` (fractional,
hexadecimal and exponent forms of `Number` do not occur here). -/
def jsNumber : Option String → JSNum
  | none => JSNum.nan
  | some s =>
    match s.data.dropWhile Char.isWhitespace with
    | [] => JSNum.num 0
    | '-' :: rest =>
      if rest ≠ [] ∧ rest.all Char.isDigit then JSNum.num (-(digitsToNat rest : Int))
      else JSNum.nan
    | '+' :: rest =>
      if rest ≠ [] ∧ rest.all Char.isDigit then JSNum.num (digitsToNat rest : Int)
      else JSNum.nan
    | cs =>
      if cs.all Char.isDigit then JSNum.num (digitsToNat cs : Int)
      else JSNum.nan

/-- Configuration object `config` (src/config/config.ts):
`port: Number(process.env.PORT) || 3000`, `nodeEnv: process.env.NODE_ENV || 'development'`. -/
def config (envPORT envNODE_ENV : Option String) : Config :=
  { port := jsOrNum (jsNumber envPORT) 3000,
    nodeEnv := jsOrStr envNODE_ENV "development" }

/-- A sequence of `createItem` calls (each with its `Date.now()` value and
request-body name) applied to a store in order. -/
def applyCreates (s : Store) (calls : List (Int × String)) : Store :=
  calls.foldl (fun st c => (createItem c.1 c.2 st).2) s


/-! ## Helper lemmas -/

/-- Equality of two genuine numbers under `===` is boolean equality. -/
lemma jsEq_num_num (a b : Int) : jsEq (JSNum.num a) (JSNum.num b) = (a == b) := rfl

/-- Nothing is `===`-equal to `NaN`. -/
lemma jsEq_nan_right (a : JSNum) : jsEq a JSNum.nan = false := by
  cases a <;> rfl

/-- When no item of the store matches the scanned id, `getItemById` answers the
404 envelope and leaves the store unchanged. -/
lemma getItemById_no_match (id : JSNum) (s : Store)
    (h : ∀ it ∈ s, jsEq (JSNum.num it.id) id = false) :
    getItemById id s = (notFound, s) := by
  have hf : s.find? (fun i => jsEq (JSNum.num i.id) id) = none :=
    List.find?_eq_none.mpr (by intro x hx; simp [h x hx])
  simp [getItemById, hf]

/-- When no item of the store matches the scanned id, `updateItem` answers the
404 envelope and leaves the store unchanged. -/
lemma updateItem_no_match (id : JSNum) (name : String) (s : Store)
    (h : ∀ it ∈ s, jsEq (JSNum.num it.id) id = false) :
    updateItem id name s = (notFound, s) := by
  induction s with
  | nil => rfl
  | cons a t ih =>
    have ha := h a (by simp)
    have ht : updateItem id name t = (notFound, t) :=
      ih (fun it hit => h it (by simp [hit]))
    simp [updateItem, ha, ht]

/-- When no item of the store matches the scanned id, `deleteItem` answers the
404 envelope and leaves the store unchanged. -/
lemma deleteItem_no_match (id : JSNum) (s : Store)
    (h : ∀ it ∈ s, jsEq (JSNum.num it.id) id = false) :
    deleteItem id s = (notFound, s) := by
  induction s with
  | nil => rfl
  | cons a t ih =>
    have ha := h a (by simp)
    have ht : deleteItem id t = (notFound, t) :=
      ih (fun it hit => h it (by simp [hit]))
    simp [deleteItem, ha, ht]

/-- Applied creates concatenate, in call order, onto the existing store. -/
lemma applyCreates_eq (s : Store) (calls : List (Int × String)) :
    applyCreates s calls = s ++ calls.map (fun c => { id := c.1, name := c.2 }) := by
  induction calls generalizing s with
  | nil => simp [applyCreates]
  | cons c cs ih =>
    have hstep : applyCreates s (c :: cs) =
        applyCreates (s ++ [{ id := c.1, name := c.2 }]) cs := rfl
    rw [hstep, ih]
    simp

/-! ## Claim theorems -/

/-- C1: after any sequence of create calls from any starting store, the store
is the old contents followed by the created items in creation order, and
`getItems` (the `listAll` operation) answers 200 with exactly the current
store while leaving the store unchanged. -/
theorem listAll_after_creates (s : Store) (calls : List (Int × String)) :
    applyCreates s calls = s ++ calls.map (fun c => { id := c.1, name := c.2 }) ∧
    getItems (applyCreates s calls) =
      ({ status := 200, body := Body.items (applyCreates s calls) },
        applyCreates s calls) :=
  ⟨applyCreates_eq s calls, rfl⟩

/-- C5: on an id carried by no item of the store, `getItemById`, `updateItem`
and `deleteItem` all answer the 404 envelope `{ message: 'Item not found' }`
and leave the store unchanged. -/
theorem never_inserted_all_notFound (s : Store) (id : Int) (name : String)
    (h : ∀ it ∈ s, it.id ≠ id) :
    getItemById (JSNum.num id) s = (notFound, s) ∧
    updateItem (JSNum.num id) name s = (notFound, s) ∧
    deleteItem (JSNum.num id) s = (notFound, s) ∧
    notFound.status = 404 ∧ notFound.body = Body.msg "Item not found" := by
  have hb : ∀ it ∈ s, jsEq (JSNum.num it.id) (JSNum.num id) = false := by
    intro it hit
    rw [jsEq_num_num]
    exact beq_eq_false_iff_ne.mpr (h it hit)
  exact ⟨getItemById_no_match _ _ hb, updateItem_no_match _ _ _ hb,
    deleteItem_no_match _ _ hb, rfl, rfl⟩

/-- Witness for C5 at the store `[{id := 1, name := "a"}]` and the absent id 2. -/
theorem never_inserted_all_notFound_witness :
    getItemById (JSNum.num 2) [{ id := 1, name := "a" }] =
      (notFound, [{ id := 1, name := "a" }]) ∧
    updateItem (JSNum.num 2) "Z" [{ id := 1, name := "a" }] =
      (notFound, [{ id := 1, name := "a" }]) ∧
    deleteItem (JSNum.num 2) [{ id := 1, name := "a" }] =
      (notFound, [{ id := 1, name := "a" }]) ∧
    notFound.status = 404 ∧ notFound.body = Body.msg "Item not found" :=
  never_inserted_all_notFound [{ id := 1, name := "a" }] 2 "Z" (by decide)

/-- C9: a path parameter on which `parseInt` yields `NaN` drives `getItemById`,
`updateItem` and `deleteItem` into their 404 branch (`NaN === x` is false for
every item id) with the store unchanged. -/
theorem nan_param_all_notFound (idStr : String) (name : String) (s : Store)
    (h : parseIntTen idStr = JSNum.nan) :
    getItemByIdParam idStr s = (notFound, s) ∧
    updateItemParam idStr name s = (notFound, s) ∧
    deleteItemParam idStr s = (notFound, s) := by
  have hb : ∀ it ∈ s, jsEq (JSNum.num it.id) JSNum.nan = false :=
    fun it _ => jsEq_nan_right _
  unfold getItemByIdParam updateItemParam deleteItemParam
  rw [h]
  exact ⟨getItemById_no_match _ _ hb, updateItem_no_match _ _ _ hb,
    deleteItem_no_match _ _ hb⟩

/-- Witness for C9 at the non-numeric parameter `"abc"`. -/
theorem nan_param_all_notFound_witness :
    getItemByIdParam "abc" [{ id := 1, name := "a" }] =
      (notFound, [{ id := 1, name := "a" }]) ∧
    updateItemParam "abc" "Z" [{ id := 1, name := "a" }] =
      (notFound, [{ id := 1, name := "a" }]) ∧
    deleteItemParam "abc" [{ id := 1, name := "a" }] =
      (notFound, [{ id := 1, name := "a" }]) :=
  nan_param_all_notFound "abc" "Z" [{ id := 1, name := "a" }] (by decide)

/-- C7: `createItem` answers 201 with the item `{ id: Date.now(), name }`,
keeps every existing item in place, grows the store by exactly one, and the
new item sits at the end. -/
theorem createItem_spec (now : Int) (name : String) (s : Store) :
    (createItem now name s).1 =
      { status := 201, body := Body.item { id := now, name := name } } ∧
    (createItem now name s).2.take s.length = s ∧
    (createItem now name s).2.length = s.length + 1 ∧
    (createItem now name s).2.getLast? = some { id := now, name := name } := by
  refine ⟨rfl, ?_, ?_, ?_⟩
  · exact List.take_left s [{ id := now, name := name }]
  · simp [createItem]
  · exact List.getLast?_concat s

/-- C8: with no `PORT` in the environment the configured port is 3000; with no
`NODE_ENV` the mode string is `"development"`; supplied values are read. -/
theorem config_defaults :
    (config none none).port = 3000 ∧
    (config none none).nodeEnv = "development" ∧
    (config (some "8080") (some "production")).port = 8080 ∧
    (config (some "8080") (some "production")).nodeEnv = "production" := by
  decide

/-- C6 counterexample: an error with `status` present but equal to 0 is sent
with status 500, not with its own `status` field, because `0 || 500` is 500. -/
theorem errorHandler_status_zero :
    ({ status := some 0, message := "boom" } : AppError).status = some 0 ∧
    (errorHandler { status := some 0, message := "boom" }).status = 500 ∧
    (500 : Int) ≠ 0 := by
  decide

/-- C6 (amended): the error response carries the error message when non-empty
and `"Internal Server Error"` otherwise, and the status is the error status
when present and nonzero, and 500 when absent or zero. -/
theorem errorHandler_spec (err : AppError) :
    (err.message ≠ "" → (errorHandler err).body = Body.msg err.message) ∧
    (err.message = "" → (errorHandler err).body = Body.msg "Internal Server Error") ∧
    (∀ n, err.status = some n → n ≠ 0 → (errorHandler err).status = n) ∧
    (err.status = none → (errorHandler err).status = 500) ∧
    (err.status = some 0 → (errorHandler err).status = 500) := by
  obtain ⟨st, m⟩ := err
  refine ⟨?_, ?_, ?_, ?_, ?_⟩
  · intro hm
    have hm' : m ≠ "" := hm
    simp [errorHandler, jsOrStr, hm']
  · intro hm
    have hm' : m = "" := hm
    subst hm'
    simp [errorHandler, jsOrStr]
  · intro n hn hn0
    cases st with
    | none => cases hn
    | some k =>
      obtain rfl : k = n := by injection hn
      simp [errorHandler, jsOrNum, hn0]
  · intro hn; subst hn; simp [errorHandler, jsOrNum]
  · intro hn; subst hn; simp [errorHandler, jsOrNum]

/-- Witness for C6 at the error `{status: 7, message: "boom"}`. -/
theorem errorHandler_spec_witness :
    (errorHandler { status := some 7, message := "boom" }).body = Body.msg "boom" ∧
    (errorHandler { status := some 7, message := "boom" }).status = 7 :=
  ⟨(errorHandler_spec { status := some 7, message := "boom" }).1 (by decide),
   (errorHandler_spec { status := some 7, message := "boom" }).2.2.1 7 rfl (by decide)⟩


/-! ## First-match characterization of the linear scans -/

/-- A nonempty set of matches in a list has a first (least-index) match. -/
lemma exists_first (s : Store) (p : Item → Bool) (h : ∃ it ∈ s, p it = true) :
    ∃ j, ∃ hj : j < s.length, p s[j] = true ∧
      ∀ m (hm : m < s.length), m < j → p s[m] = false := by
  induction s with
  | nil => simp at h
  | cons a t ih =>
    cases hpa : p a with
    | true =>
      refine ⟨0, by simp, by simpa using hpa, ?_⟩
      intro m hm hm0
      omega
    | false =>
      have h' : ∃ it ∈ t, p it = true := by
        obtain ⟨it, hit, hp⟩ := h
        rcases List.mem_cons.mp hit with rfl | hmem
        · rw [hpa] at hp; cases hp
        · exact ⟨it, hmem, hp⟩
      obtain ⟨j, hj, hje, hbef⟩ := ih h'
      refine ⟨j + 1, by simpa using Nat.succ_lt_succ hj, by simpa using hje, ?_⟩
      intro m hm hmj
      cases m with
      | zero => simpa using hpa
      | succ k =>
        have hk : k < t.length := by simpa using hm
        simpa using hbef k hk (by omega)

/-- The scan of `Array.prototype.find` returns the entry at the least matching
index. -/
lemma find?_first (s : Store) (p : Item → Bool) (j : Nat) (hj : j < s.length)
    (hpj : p s[j] = true)
    (hbef : ∀ m (hm : m < s.length), m < j → p s[m] = false) :
    s.find? p = some s[j] := by
  induction s generalizing j with
  | nil => exact absurd hj (by simp)
  | cons a t ih =>
    cases j with
    | zero =>
      have hpa : p a = true := by simpa using hpj
      simp [List.find?_cons, hpa]
    | succ k =>
      have hpa : p a = false := hbef 0 (by simp) (Nat.succ_pos k)
      have hk : k < t.length := by simpa using hj
      have hpj' : p t[k] = true := by simpa using hpj
      have hbef' : ∀ m (hm : m < t.length), m < k → p t[m] = false := by
        intro m hm hmk
        simpa using hbef (m + 1) (by simpa using Nat.succ_lt_succ hm) (by omega)
      simp [List.find?_cons, hpa, ih k hk hpj' hbef']

/-- On a store whose least matching index is `j`, `getItemById` answers 200
with the item at `j` and leaves the store unchanged. -/
lemma getItemById_at (s : Store) (id : Int) (j : Nat) (hj : j < s.length)
    (hje : s[j].id = id)
    (hbef : ∀ m (hm : m < s.length), m < j → s[m].id ≠ id) :
    getItemById (JSNum.num id) s = ({ status := 200, body := Body.item s[j] }, s) := by
  have hf : s.find? (fun i => jsEq (JSNum.num i.id) (JSNum.num id)) = some s[j] := by
    refine find?_first s _ j hj ?_ ?_
    · simpa [jsEq_num_num] using beq_iff_eq.mpr hje
    · intro m hm hmj
      simpa [jsEq_num_num] using beq_eq_false_iff_ne.mpr (hbef m hm hmj)
  simp [getItemById, hf]

/-- On a store whose least matching index is `j`, `updateItem` rewrites the
item at `j` to carry the new name (same id) and answers 200 with it. -/
lemma updateItem_at (s : Store) (id : Int) (name : String) (j : Nat)
    (hj : j < s.length) (hje : s[j].id = id)
    (hbef : ∀ m (hm : m < s.length), m < j → s[m].id ≠ id) :
    updateItem (JSNum.num id) name s =
      ({ status := 200, body := Body.item { id := s[j].id, name := name } },
        s.set j { id := s[j].id, name := name }) := by
  induction s generalizing j with
  | nil => exact absurd hj (by simp)
  | cons a t ih =>
    cases j with
    | zero =>
      have ha : (a.id == id) = true := beq_iff_eq.mpr (by simpa using hje)
      simp [updateItem, jsEq_num_num, ha]
    | succ k =>
      have hane : a.id ≠ id := hbef 0 (by simp) (Nat.succ_pos k)
      have ha : (a.id == id) = false := beq_eq_false_iff_ne.mpr hane
      have hk : k < t.length := by simpa using hj
      have hje' : t[k].id = id := by simpa using hje
      have hbef' : ∀ m (hm : m < t.length), m < k → t[m].id ≠ id := by
        intro m hm hmk
        simpa using hbef (m + 1) (by simpa using Nat.succ_lt_succ hm) (by omega)
      simp [updateItem, jsEq_num_num, ha, ih k hk hje' hbef']

/-- On a store whose least matching index is `j`, `deleteItem` removes the
item at `j` and answers 200 with it. -/
lemma deleteItem_at (s : Store) (id : Int) (j : Nat)
    (hj : j < s.length) (hje : s[j].id = id)
    (hbef : ∀ m (hm : m < s.length), m < j → s[m].id ≠ id) :
    deleteItem (JSNum.num id) s =
      ({ status := 200, body := Body.item s[j] }, s.eraseIdx j) := by
  induction s generalizing j with
  | nil => exact absurd hj (by simp)
  | cons a t ih =>
    cases j with
    | zero =>
      have ha : (a.id == id) = true := beq_iff_eq.mpr (by simpa using hje)
      simp [deleteItem, jsEq_num_num, ha]
    | succ k =>
      have hane : a.id ≠ id := hbef 0 (by simp) (Nat.succ_pos k)
      have ha : (a.id == id) = false := beq_eq_false_iff_ne.mpr hane
      have hk : k < t.length := by simpa using hj
      have hje' : t[k].id = id := by simpa using hje
      have hbef' : ∀ m (hm : m < t.length), m < k → t[m].id ≠ id := by
        intro m hm hmk
        simpa using hbef (m + 1) (by simpa using Nat.succ_lt_succ hm) (by omega)
      simp [deleteItem, jsEq_num_num, ha, ih k hk hje' hbef']

/-- Entries after an erased index survive, shifted down by one. -/
lemma getElem?_eraseIdx_gt (l : Store) (j m : Nat) (hjm : j < m) :
    (l.eraseIdx j)[m - 1]? = l[m]? := by
  induction l generalizing j m with
  | nil => simp [List.eraseIdx]
  | cons a t ih =>
    cases j with
    | zero =>
      obtain ⟨k, rfl⟩ : ∃ k, m = k + 1 := ⟨m - 1, by omega⟩
      simp [List.eraseIdx_cons_zero]
    | succ i =>
      obtain ⟨k, rfl⟩ : ∃ k, m = k + 1 := ⟨m - 1, by omega⟩
      have hik : i < k := by omega
      cases k with
      | zero => omega
      | succ k2 =>
        rw [List.eraseIdx_cons_succ]
        have hs : k2 + 1 + 1 - 1 = k2 + 1 := rfl
        rw [hs, List.getElem?_cons_succ, List.getElem?_cons_succ]
        simpa using ih i (k2 + 1) hik

/-- First-match bookkeeping for `deleteItem` on a store with at least one
match: the length drops by one, the removed matching item is answered with
200, and exactly one match disappears from the store. -/
lemma deleteItem_countP (s : Store) (id : Int)
    (h : 0 < s.countP (fun it => it.id == id)) :
    (deleteItem (JSNum.num id) s).2.length + 1 = s.length ∧
    (∃ removed, (deleteItem (JSNum.num id) s).1 =
        { status := 200, body := Body.item removed } ∧
        removed ∈ s ∧ removed.id = id) ∧
    (deleteItem (JSNum.num id) s).2.countP (fun it => it.id == id) + 1 =
      s.countP (fun it => it.id == id) := by
  induction s with
  | nil => simp at h
  | cons a t ih =>
    by_cases haeq : a.id = id
    · have ha : (a.id == id) = true := beq_iff_eq.mpr haeq
      refine ⟨?_, ⟨a, ?_, by simp, haeq⟩, ?_⟩
      · simp [deleteItem, jsEq_num_num, ha]
      · simp [deleteItem, jsEq_num_num, ha]
      · simp [deleteItem, jsEq_num_num, ha, List.countP_cons]
    · have ha : (a.id == id) = false := beq_eq_false_iff_ne.mpr haeq
      have h' : 0 < t.countP (fun it => it.id == id) := by
        simpa [List.countP_cons, ha] using h
      obtain ⟨hlen, ⟨rm, hrm1, hrm2, hrm3⟩, hcnt⟩ := ih h'
      refine ⟨?_, ⟨rm, ?_, List.mem_cons_of_mem a hrm2, hrm3⟩, ?_⟩
      · simp only [deleteItem, jsEq_num_num, ha, Bool.false_eq_true, if_false,
          List.length_cons]
        omega
      · simp [deleteItem, jsEq_num_num, ha, hrm1]
      · simp only [deleteItem, jsEq_num_num, ha, Bool.false_eq_true, if_false,
          List.countP_cons, List.length_cons]
        simp [ha]
        omega


/-- C2 counterexample: when the store already holds an item whose id equals
the creation timestamp, the immediate `getItemById` on the returned id yields
the earlier item, not the one the create returned. -/
theorem create_then_getById_collision :
    (createItem 5 "X" [{ id := 5, name := "old" }]).1.body =
      Body.item { id := 5, name := "X" } ∧
    (getItemById (JSNum.num 5) (createItem 5 "X" [{ id := 5, name := "old" }]).2).1 =
      { status := 200, body := Body.item { id := 5, name := "old" } } ∧
    ({ id := 5, name := "old" } : Item) ≠ { id := 5, name := "X" } := by
  decide

/-- C2 (amended): provided no item already in the store carries the fresh
timestamp id, `createItem` followed immediately by `getItemById` on the
returned id answers 200 with an item equal to the created one. -/
theorem create_then_getById (s : Store) (now : Int) (name : String)
    (h : ∀ it ∈ s, it.id ≠ now) :
    (createItem now name s).1.body = Body.item { id := now, name := name } ∧
    getItemById (JSNum.num now) (createItem now name s).2 =
      ({ status := 200, body := Body.item { id := now, name := name } },
        (createItem now name s).2) := by
  refine ⟨rfl, ?_⟩
  have h1 : s.find? (fun i => i.id == now) = none := by
    refine List.find?_eq_none.mpr ?_
    intro x hx
    simpa using h x hx
  show getItemById (JSNum.num now) (s ++ [{ id := now, name := name }]) =
    ({ status := 200, body := Body.item { id := now, name := name } },
      s ++ [{ id := now, name := name }])
  simp [getItemById, List.find?_append, jsEq_num_num, h1, List.find?_cons, Option.or]

/-- Witness for C2 on a one-item store with a non-colliding timestamp. -/
theorem create_then_getById_witness :
    (createItem 2 "X" [{ id := 1, name := "a" }]).1.body =
      Body.item { id := 2, name := "X" } ∧
    getItemById (JSNum.num 2) (createItem 2 "X" [{ id := 1, name := "a" }]).2 =
      ({ status := 200, body := Body.item { id := 2, name := "X" } },
        (createItem 2 "X" [{ id := 1, name := "a" }]).2) :=
  create_then_getById [{ id := 1, name := "a" }] 2 "X" (by decide)

/-- C3 counterexample: on a store with two items of the same id, `deleteItem`
removes only the first, and the subsequent `getItemById` on that id still
answers 200 (the second item), not the 404 envelope. -/
theorem delete_then_getById_collision :
    (deleteItem (JSNum.num 1) [{ id := 1, name := "a" }, { id := 1, name := "b" }]).1 =
      { status := 200, body := Body.item { id := 1, name := "a" } } ∧
    (deleteItem (JSNum.num 1) [{ id := 1, name := "a" }, { id := 1, name := "b" }]).2 =
      [{ id := 1, name := "b" }] ∧
    getItemById (JSNum.num 1) [{ id := 1, name := "b" }] ≠
      (notFound, [{ id := 1, name := "b" }]) := by
  decide

/-- C3 (amended): on a store holding exactly one item with the given id,
`deleteItem` removes exactly one item (the length drops by one), answers 200
with the removed matching item, and the subsequent `getItemById` on that id
answers the 404 envelope on the resulting store. -/
theorem delete_unique (s : Store) (id : Int)
    (h : s.countP (fun it => it.id == id) = 1) :
    (deleteItem (JSNum.num id) s).2.length + 1 = s.length ∧
    (∃ removed, (deleteItem (JSNum.num id) s).1 =
        { status := 200, body := Body.item removed } ∧
        removed ∈ s ∧ removed.id = id) ∧
    getItemById (JSNum.num id) (deleteItem (JSNum.num id) s).2 =
      (notFound, (deleteItem (JSNum.num id) s).2) := by
  obtain ⟨hlen, hrem, hcnt⟩ := deleteItem_countP s id (by omega)
  refine ⟨hlen, hrem, ?_⟩
  have hz : (deleteItem (JSNum.num id) s).2.countP (fun it => it.id == id) = 0 := by
    omega
  refine getItemById_no_match _ _ ?_
  intro it hit
  have hne := List.countP_eq_zero.mp hz it hit
  rw [jsEq_num_num]
  simpa using hne

/-- Witness for C3 on the one-item store whose sole item carries the id. -/
theorem delete_unique_witness :
    (deleteItem (JSNum.num 1) [{ id := 1, name := "a" }]).2.length + 1 =
      ([{ id := 1, name := "a" }] : Store).length ∧
    (∃ removed, (deleteItem (JSNum.num 1) [{ id := 1, name := "a" }]).1 =
        { status := 200, body := Body.item removed } ∧
        removed ∈ ([{ id := 1, name := "a" }] : Store) ∧ removed.id = 1) ∧
    getItemById (JSNum.num 1) (deleteItem (JSNum.num 1) [{ id := 1, name := "a" }]).2 =
      (notFound, (deleteItem (JSNum.num 1) [{ id := 1, name := "a" }]).2) :=
  delete_unique [{ id := 1, name := "a" }] 1 (by decide)

/-- C4: when some item matches the id, `updateItem` acts exactly at the least
matching index `j`: the item there keeps its id and gets the new name, the
updated item is answered with 200, the store keeps its length and ordering
(`List.set`), and every position other than `j` is untouched. -/
theorem update_frame (s : Store) (id : Int) (name : String)
    (h : ∃ it ∈ s, it.id = id) :
    ∃ j, ∃ hj : j < s.length,
      s[j].id = id ∧
      (∀ m (hm : m < s.length), m < j → s[m].id ≠ id) ∧
      updateItem (JSNum.num id) name s =
        ({ status := 200, body := Body.item { id := s[j].id, name := name } },
          s.set j { id := s[j].id, name := name }) ∧
      (s.set j { id := s[j].id, name := name }).length = s.length ∧
      (∀ m, m ≠ j → (s.set j { id := s[j].id, name := name })[m]? = s[m]?) := by
  have h' : ∃ it ∈ s, (fun it => it.id == id) it = true := by
    obtain ⟨it, hit, he⟩ := h
    exact ⟨it, hit, beq_iff_eq.mpr he⟩
  obtain ⟨j, hj, hje, hbef⟩ := exists_first s _ h'
  have hje' : s[j].id = id := beq_iff_eq.mp hje
  have hbef' : ∀ m (hm : m < s.length), m < j → s[m].id ≠ id := by
    intro m hm hmj
    exact beq_eq_false_iff_ne.mp (hbef m hm hmj)
  exact ⟨j, hj, hje', hbef', updateItem_at s id name j hj hje' hbef', by simp,
    fun m hm => List.getElem?_set_ne (Ne.symm hm)⟩

/-- Witness for C4 on a one-item store, evaluated to the concrete update. -/
theorem update_frame_witness :
    updateItem (JSNum.num 1) "Y" [{ id := 1, name := "a" }] =
      ({ status := 200, body := Body.item { id := 1, name := "Y" } },
        [{ id := 1, name := "Y" }]) := by
  obtain ⟨j, hj, hje, hbef, heq, hlen, hframe⟩ :=
    update_frame [{ id := 1, name := "a" }] 1 "Y" ⟨{ id := 1, name := "a" }, by decide, rfl⟩
  have hj0 : j = 0 := by
    simp at hj
    omega
  subst hj0
  simpa using heq

/-- C10: on a store with two or more items sharing the id, all three scans act
at the least matching index `j`: `getItemById` answers the item at `j`,
`updateItem` renames only position `j` (other positions untouched), and
`deleteItem` removes only position `j`, every later item surviving shifted
down by one. -/
theorem duplicate_ids_first_match (s : Store) (id : Int) (name : String)
    (h2 : 2 ≤ s.countP (fun it => it.id == id)) :
    ∃ j, ∃ hj : j < s.length,
      s[j].id = id ∧
      (∀ m (hm : m < s.length), m < j → s[m].id ≠ id) ∧
      getItemById (JSNum.num id) s =
        ({ status := 200, body := Body.item s[j] }, s) ∧
      updateItem (JSNum.num id) name s =
        ({ status := 200, body := Body.item { id := s[j].id, name := name } },
          s.set j { id := s[j].id, name := name }) ∧
      deleteItem (JSNum.num id) s =
        ({ status := 200, body := Body.item s[j] }, s.eraseIdx j) ∧
      (∀ m, m ≠ j → (s.set j { id := s[j].id, name := name })[m]? = s[m]?) ∧
      (∀ m, j < m → (s.eraseIdx j)[m - 1]? = s[m]?) := by
  have h' : ∃ it ∈ s, (fun it => it.id == id) it = true := by
    have h0 : 0 < s.countP (fun it => it.id == id) := by omega
    exact List.countP_pos_iff.mp h0
  obtain ⟨j, hj, hje, hbef⟩ := exists_first s _ h'
  have hje' : s[j].id = id := beq_iff_eq.mp hje
  have hbef' : ∀ m (hm : m < s.length), m < j → s[m].id ≠ id := by
    intro m hm hmj
    exact beq_eq_false_iff_ne.mp (hbef m hm hmj)
  exact ⟨j, hj, hje', hbef', getItemById_at s id j hj hje' hbef',
    updateItem_at s id name j hj hje' hbef', deleteItem_at s id j hj hje' hbef',
    fun m hm => List.getElem?_set_ne (Ne.symm hm),
    fun m hm => getElem?_eraseIdx_gt s j m hm⟩

/-- Witness for C10 on a two-item store whose items share the id 1. -/
theorem duplicate_ids_first_match_witness :
    getItemById (JSNum.num 1) [{ id := 1, name := "a" }, { id := 1, name := "b" }] =
      ({ status := 200, body := Body.item { id := 1, name := "a" } },
        [{ id := 1, name := "a" }, { id := 1, name := "b" }]) ∧
    updateItem (JSNum.num 1) "Y" [{ id := 1, name := "a" }, { id := 1, name := "b" }] =
      ({ status := 200, body := Body.item { id := 1, name := "Y" } },
        [{ id := 1, name := "Y" }, { id := 1, name := "b" }]) ∧
    deleteItem (JSNum.num 1) [{ id := 1, name := "a" }, { id := 1, name := "b" }] =
      ({ status := 200, body := Body.item { id := 1, name := "a" } },
        [{ id := 1, name := "b" }]) := by
  obtain ⟨j, hj, hje, hbef, hget, hupd, hdel, hset, herase⟩ :=
    duplicate_ids_first_match [{ id := 1, name := "a" }, { id := 1, name := "b" }] 1 "Y"
      (by decide)
  have hj0 : j = 0 := by
    rcases Nat.lt_or_ge j 1 with hlt | hge
    · omega
    · exfalso
      have := hbef 0 (by simp) (by omega)
      simp at this
  subst hj0
  exact ⟨by simpa using hget, by simpa using hupd, by simpa using hdel⟩

end TsExpress
